import Mathlib

/-!
Shallow embedding of the magnet-module physics core of this repository
(`src/unnamed/part_000`): 2D vector helpers, the `Component` body class,
the magnetic force model, the integrator, and the SAT collision
detector/resolver.  JavaScript floating-point numbers are modelled as real
numbers; `Math.sqrt` is `Real.sqrt`.  Each definition mirrors the source
function of the same name.  Bodies' masses are positive in the program
(every entry of the `setSize` table is positive), so theorems about
mass-ratio branches carry positivity hypotheses.
-/

noncomputable section

namespace Magnet

/-- 2D vector, the `{x, y}` objects of the source. -/
@[ext]
structure Vec2 where
  x : ℝ
  y : ℝ
deriving DecidableEq

namespace Vec2

/-- `Vec2.add` (line 29). -/
def add (v1 v2 : Vec2) : Vec2 := ⟨v1.x + v2.x, v1.y + v2.y⟩

/-- `Vec2.sub` (line 30). -/
def sub (v1 v2 : Vec2) : Vec2 := ⟨v1.x - v2.x, v1.y - v2.y⟩

/-- `Vec2.mag` (line 31). -/
def mag (v : Vec2) : ℝ := Real.sqrt (v.x * v.x + v.y * v.y)

/-- `Vec2.norm` (lines 32-35): zero vector when the magnitude is zero. -/
def norm (v : Vec2) : Vec2 :=
  if Real.sqrt (v.x * v.x + v.y * v.y) = 0 then ⟨0, 0⟩
  else ⟨v.x / Real.sqrt (v.x * v.x + v.y * v.y), v.y / Real.sqrt (v.x * v.x + v.y * v.y)⟩

/-- `Vec2.scale` (line 36). -/
def scale (v : Vec2) (s : ℝ) : Vec2 := ⟨v.x * s, v.y * s⟩

/-- `Vec2.dot` (line 37). -/
def dot (v1 v2 : Vec2) : ℝ := v1.x * v2.x + v1.y * v2.y

/-- `Vec2.cross` (line 38). -/
def cross (v1 v2 : Vec2) : ℝ := v1.x * v2.y - v1.y * v2.x

/-- `Vec2.rotate` (lines 39-42). -/
def rotate (v : Vec2) (angle : ℝ) : Vec2 :=
  ⟨v.x * Real.cos angle - v.y * Real.sin angle,
   v.x * Real.sin angle + v.y * Real.cos angle⟩

end Vec2

/-- Physics constants (lines 19-23). -/
def MAGNETIC_CONSTANT : ℝ := 15000

def DRAG : ℝ := 0.90

def ANGULAR_DRAG : ℝ := 0.80

def MAX_SPEED : ℝ := 15

/-- The mutable fields of the `Component` class (lines 48-66) that the
physics reads or writes.  `type` is the raw kind string, as in the source. -/
@[ext]
structure Component where
  type : String
  x : ℝ
  y : ℝ
  rotation : ℝ
  vx : ℝ
  vy : ℝ
  angV : ℝ
  mass : ℝ
  momentInertia : ℝ
  isStatic : Bool
  needleAngle : ℝ
  width : ℝ
  height : ℝ

namespace Component

/-- `Component.setSize` (lines 68-99): default size first, then the
per-kind overrides. -/
def setSize (c : Component) : Component :=
  let c := { c with width := 60, height := 60, mass := 1 }
  if c.type = "bar_magnet" then { c with width := 80, height := 40, mass := 10 }
  else if c.type = "iron_nail" then { c with width := 80, height := 20, mass := 0.5 }
  else if c.type = "compass" then { c with width := 60, height := 60, mass := 1 }
  else if c.type = "key" then { c with width := 60, height := 30, mass := 0.2 }
  else if c.type = "eraser" then { c with width := 50, height := 30, mass := 0.5 }
  else if c.type = "coin" then { c with width := 40, height := 40, mass := 0.2 }
  else c

/-- The `Component` constructor (lines 49-66): field defaults, then
`setSize`.  It is total: no kind is rejected. -/
def create (type : String) (x y : ℝ) : Component :=
  setSize { type := type, x := x, y := y, rotation := 0,
            vx := 0, vy := 0, angV := 0, mass := 1, momentInertia := 1000,
            isStatic := false, needleAngle := 0, width := 0, height := 0 }

/-- `Component.getCorners` (lines 102-119): the four oriented
bounding-box corners in world space, in source order. -/
def getCorners (c : Component) : List Vec2 :=
  let hw := c.width / 2
  let hh := c.height / 2
  [Vec2.mk (-hw) (-hh), Vec2.mk hw (-hh), Vec2.mk hw hh, Vec2.mk (-hw) hh].map
    (fun p =>
      let rotated := Vec2.rotate p c.rotation
      ⟨c.x + rotated.x, c.y + rotated.y⟩)

/-- `Component.applyForce` (lines 150-161): no-op on a static body,
otherwise explicit-Euler velocity and angular-velocity increments. -/
def applyForce (c : Component) (force worldPoint : Vec2) : Component :=
  if c.isStatic then c
  else
    let r := Vec2.sub worldPoint ⟨c.x, c.y⟩
    let torque := r.x * force.y - r.y * force.x
    { c with vx := c.vx + force.x / c.mass,
             vy := c.vy + force.y / c.mass,
             angV := c.angV + torque / c.momentInertia }

end Component

/-- A magnet pole sign, `'N'` or `'S'` in the source. -/
inductive PoleKind where
  | N : PoleKind
  | S : PoleKind
deriving DecidableEq

/-- A pole as returned by `Component.getPoles`: kind, world position,
strength. -/
structure Pole where
  kind : PoleKind
  pos : Vec2
  strength : ℝ

/-- `Component.getPoles` (lines 122-136): two poles for a bar magnet,
none otherwise. -/
def Component.getPoles (c : Component) : List Pole :=
  if c.type = "bar_magnet" then
    let hw := c.width / 2
    let nPos := Vec2.rotate ⟨-hw + 10, 0⟩ c.rotation
    let sPos := Vec2.rotate ⟨hw - 10, 0⟩ c.rotation
    [⟨PoleKind.N, Vec2.add ⟨c.x, c.y⟩ nPos, 1⟩,
     ⟨PoleKind.S, Vec2.add ⟨c.x, c.y⟩ sPos, 1⟩]
  else []

/-! ## Separating Axis Theorem (lines 716-771) -/

/-- A projection interval, the `{min, max}` of `project`. -/
structure Proj where
  min : ℝ
  max : ℝ

/-- `getAxes` (lines 742-752): the outward normal of each edge,
normalized. -/
def getAxes (poly : List Vec2) : List Vec2 :=
  (List.range poly.length).map (fun i =>
    let p1 := poly.getD i ⟨0, 0⟩
    let p2 := poly.getD ((i + 1) % poly.length) ⟨0, 0⟩
    let edge := Vec2.sub p2 p1
    Vec2.norm ⟨-edge.y, edge.x⟩)

/-- `project` (lines 754-763): the min/max of the dot products of the
polygon's points with the axis.  The source starts from `±Infinity`;
polygons here are the nonempty corner lists, for which that is the same
as folding from the first point. -/
def project (poly : List Vec2) (axis : Vec2) : Proj :=
  match poly with
  | [] => ⟨0, 0⟩
  | p :: ps =>
      ps.foldl
        (fun pr q => ⟨min pr.min (Vec2.dot q axis), max pr.max (Vec2.dot q axis)⟩)
        ⟨Vec2.dot p axis, Vec2.dot p axis⟩

/-- `overlaps` (lines 765-767). -/
def overlapsP (p1 p2 : Proj) : Prop := p1.max ≥ p2.min ∧ p2.max ≥ p1.min

instance (p1 p2 : Proj) : Decidable (overlapsP p1 p2) := by
  unfold overlapsP; exact Classical.dec _

/-- `getOverlap` (lines 769-771). -/
def getOverlap (p1 p2 : Proj) : ℝ := min p1.max p2.max - max p1.min p2.min

/-- The axis loop of `satTest` (lines 724-738).  The accumulator is the
best `(overlap, axis)` seen so far; `none` stands for the source's
initial `overlap = Infinity`, `bestAxis = null`.  The outer `none`
return is the separating-axis early exit. -/
def satAux (poly1 poly2 : List Vec2) :
    List Vec2 → Option (ℝ × Vec2) → Option (Option (ℝ × Vec2))
  | [], best => some best
  | axis :: rest, best =>
      let p1Proj := project poly1 axis
      let p2Proj := project poly2 axis
      if overlapsP p1Proj p2Proj then
        let o := getOverlap p1Proj p2Proj
        let best' :=
          match best with
          | none => some (o, axis)
          | some (b, ba) => if o < b then some (o, axis) else some (b, ba)
        satAux poly1 poly2 rest best'
      else none

/-- `satTest` (lines 717-740): `none` when a separating axis is found,
otherwise the minimum overlap and the axis attaining it.  (For the
4-corner polygons of `getCorners` the axis list is never empty, so the
inner accumulator is always filled.) -/
def satTest (poly1 poly2 : List Vec2) : Option (ℝ × Vec2) :=
  (satAux poly1 poly2 (getAxes poly1 ++ getAxes poly2) none).bind id

/-! ## Magnetic force model (lines 387-481) -/

/-- The pole sign `q = (p.type === 'N' ? 1 : -1)` (lines 416-417). -/
def Pole.charge (p : Pole) : ℝ := if p.kind = PoleKind.N then 1 else -1

/-- The magnet-magnet pole force (lines 404-438): the force applied to
the target pole `p2` from the source pole `p1`.  `none` is the source's
early `return` when the pair is beyond the 300-unit range: no force is
applied at all. -/
def magnetPoleForce (p1 p2 : Pole) : Option Vec2 :=
  let r := Vec2.sub p1.pos p2.pos
  let distSq := r.x * r.x + r.y * r.y
  let dist := max (Real.sqrt distSq) 15
  let clampedDistSq := dist * dist
  if dist > 300 then none
  else
    let q1 := p1.charge
    let q2 := p2.charge
    let forceMag := q1 * q2 * MAGNETIC_CONSTANT / clampedDistSq
    let forceMag := if dist < 40 then forceMag * max ((dist - 15) / 25) 0 else forceMag
    let forceMag := if forceMag > 2000 then 2000 else forceMag
    let forceMag := if forceMag < -2000 then -2000 else forceMag
    let dir := Vec2.norm (Vec2.sub p2.pos p1.pos)
    some (Vec2.scale dir forceMag)

/-- One iteration of the magnet-magnet pole-pair loop (lines 401-453):
apply the pole force to `obj` at `p2.pos`, and the Newton's-third-law
reaction to `magnet` at `p1.pos` unless the magnet is static or the
light-object suppression (`massRatio < 0.1`) fires.  Returns the updated
`(magnet, obj)`. -/
def polePairInteract (magnet obj : Component) (p1 p2 : Pole) :
    Component × Component :=
  match magnetPoleForce p1 p2 with
  | none => (magnet, obj)
  | some force =>
      let obj' := obj.applyForce force p2.pos
      let magnet' :=
        if magnet.isStatic = false then
          let massRatio := obj.mass / magnet.mass
          let reactionScale := if massRatio < 0.1 then (0 : ℝ) else 1
          if reactionScale > 0 then
            magnet.applyForce (Vec2.scale force (-1 * reactionScale)) p1.pos
          else magnet
        else magnet
      (magnet', obj')

/-- The soft-ferromagnetic (nail/key) end-point force (lines 465-477):
the force applied to the end point `pt` from the magnet pole at
`polePos`.  `none` is the early `return` outside the squared-distance
window: no force is applied for that pair. -/
def softForce (pt polePos : Vec2) : Option Vec2 :=
  let r := Vec2.sub pt polePos
  let distSq := r.x * r.x + r.y * r.y
  if distSq < 100 ∨ distSq > 60000 then none
  else
    let forceMag := -1 * (MAGNETIC_CONSTANT * 0.5) / distSq
    let dir := Vec2.norm (Vec2.sub pt polePos)
    some (Vec2.scale dir forceMag)

/-! ## Integrator (lines 483-524) -/

/-- The bounds check of the motion update (lines 518-523): clamp each
out-of-range coordinate to the 20-unit margin and multiply the offending
velocity component by `-0.5`. -/
def boundsCheck (W H : ℝ) (c : Component) : Component :=
  let margin : ℝ := 20
  let c := if c.x < margin then { c with x := margin, vx := c.vx * (-0.5) } else c
  let c := if c.x > W - margin then { c with x := W - margin, vx := c.vx * (-0.5) } else c
  let c := if c.y < margin then { c with y := margin, vy := c.vy * (-0.5) } else c
  if c.y > H - margin then { c with y := H - margin, vy := c.vy * (-0.5) } else c

/-- The per-component motion update (lines 484-524): skip static bodies;
strong damping below speed 2, otherwise standard drag; sleep threshold;
speed cap; explicit-Euler integration; bounds check.  `W`/`H` are the
canvas dimensions. -/
def motionUpdate (W H : ℝ) (c : Component) : Component :=
  if c.isStatic then c
  else
    let currentSpeed := Real.sqrt (c.vx * c.vx + c.vy * c.vy)
    let c :=
      if currentSpeed < 2 then
        { c with vx := c.vx * 0.80, vy := c.vy * 0.80, angV := c.angV * 0.80 }
      else
        { c with vx := c.vx * DRAG, vy := c.vy * DRAG, angV := c.angV * ANGULAR_DRAG }
    let speed := Real.sqrt (c.vx * c.vx + c.vy * c.vy)
    let c := if speed < 0.2 ∧ |c.angV| < 0.05 then { c with vx := 0, vy := 0, angV := 0 } else c
    let speed2 := Real.sqrt (c.vx * c.vx + c.vy * c.vy)
    let c :=
      if speed2 > MAX_SPEED then
        { c with vx := c.vx / speed2 * MAX_SPEED, vy := c.vy / speed2 * MAX_SPEED }
      else c
    let c := { c with x := c.x + c.vx, y := c.y + c.vy, rotation := c.rotation + c.angV }
    boundsCheck W H c

/-- The dragged-object reset at the start of a tick (lines 340-345). -/
def dragReset (c : Component) : Component :=
  { c with isStatic := true, vx := 0, vy := 0, angV := 0 }

/-! ## Collision resolution (lines 539-714) -/

/-- The separation vector (lines 564-573): the SAT axis scaled by the
overlap, flipped if it does not point from `c2`'s center towards `c1`'s
center. -/
def collisionSep (c1 c2 : Component) (overlap : ℝ) (axis : Vec2) : Vec2 :=
  let sep := Vec2.scale axis overlap
  let centerDiff := Vec2.sub ⟨c1.x, c1.y⟩ ⟨c2.x, c2.y⟩
  if Vec2.dot sep centerDiff < 0 then Vec2.scale sep (-1) else sep

/-- The collision normal (line 591): the normalized separation vector. -/
def collisionNormal (c1 c2 : Component) (overlap : ℝ) (axis : Vec2) : Vec2 :=
  Vec2.norm (collisionSep c1 c2 overlap axis)

/-- The common velocity of the velocity-weld block (lines 606-625):
static bodies count as mass 100000, a >10x mass ratio gives the heavier
body's velocity outright, otherwise the mass-weighted average. -/
def weldCommonVelocity (c1 c2 : Component) : ℝ × ℝ :=
  let m1 := if c1.isStatic then (100000 : ℝ) else c1.mass
  let m2 := if c2.isStatic then (100000 : ℝ) else c2.mass
  if m1 / m2 > 10 then (c1.vx, c1.vy)
  else if m2 / m1 > 10 then (c2.vx, c2.vy)
  else
    let totalM := m1 + m2
    ((c1.vx * m1 + c2.vx * m2) / totalM, (c1.vy * m1 + c2.vy * m2) / totalM)

/-- `totalMass` of the positional correction (line 553): a static body
counts as 10000. -/
def totalMassOf (c1 c2 : Component) : ℝ :=
  (if c1.isStatic then (10000 : ℝ) else c1.mass) +
  (if c2.isStatic then (10000 : ℝ) else c2.mass)

/-- The final value of `m1Ratio` after the two sequential infinite-mass
overrides (lines 555-561): the later assignment wins. -/
def posRatio1 (c1 c2 : Component) : ℝ :=
  if c2.mass / c1.mass > 10 ∧ c2.isStatic = false then 1
  else if c1.mass / c2.mass > 10 ∧ c1.isStatic = false then 0
  else if c1.isStatic then 0 else c2.mass / totalMassOf c1 c2

/-- The final value of `m2Ratio` after the two sequential infinite-mass
overrides (lines 555-561). -/
def posRatio2 (c1 c2 : Component) : ℝ :=
  if c2.mass / c1.mass > 10 ∧ c2.isStatic = false then 0
  else if c1.mass / c2.mass > 10 ∧ c1.isStatic = false then 1
  else if c2.isStatic then 0 else c1.mass / totalMassOf c1 c2

/-- The weld-suppression factor of the soft positional correction
(lines 575-579): zero when the approximate relative speed is below 3. -/
def correctionFactor (c1 c2 : Component) : ℝ :=
  if Vec2.mag (Vec2.sub ⟨c1.vx, c1.vy⟩ ⟨c2.vx, c2.vy⟩) < 3 then 0 else 1

/-- Positional correction of `c1` (lines 581-584). -/
def posCorrect1 (c1 c2 : Component) (sep : Vec2) : Component :=
  if c1.isStatic = false then
    { c1 with x := c1.x + sep.x * posRatio1 c1 c2 * correctionFactor c1 c2,
              y := c1.y + sep.y * posRatio1 c1 c2 * correctionFactor c1 c2 }
  else c1

/-- Positional correction of `c2` (lines 585-588). -/
def posCorrect2 (c1 c2 : Component) (sep : Vec2) : Component :=
  if c2.isStatic = false then
    { c2 with x := c2.x - sep.x * posRatio2 c1 c2 * correctionFactor c1 c2,
              y := c2.y - sep.y * posRatio2 c1 c2 * correctionFactor c1 c2 }
  else c2

/-- The velocity-weld block (lines 605-640): both non-static bodies get
the common velocity and zero angular velocity; `c1p`/`c2p` are the
position-corrected bodies. -/
def velWeld (c1 c2 c1p c2p : Component) : Component × Component :=
  (if c1.isStatic = false then
     { c1p with vx := (weldCommonVelocity c1 c2).1, vy := (weldCommonVelocity c1 c2).2,
                angV := 0 }
   else c1p,
   if c2.isStatic = false then
     { c2p with vx := (weldCommonVelocity c1 c2).1, vy := (weldCommonVelocity c1 c2).2,
                angV := 0 }
   else c2p)

/-- The normal- and friction-impulse block (lines 645-712): adaptive
restitution, impulse scalar with the inverse-mass overrides, Coulomb cap
on the tangential impulse, friction applied at half strength.  `rv` and
`normal` are the relative velocity and collision normal; velocities read
for the impulse are the original ones (positional correction does not
touch velocities). -/
def impulseApply (c1 c2 c1p c2p : Component) (normal rv : Vec2) : Component × Component :=
  let velAlongNormal := Vec2.dot rv normal
  let e := if velAlongNormal > -1 then (0 : ℝ) else 0.2
  let j0 := -(1 + e) * velAlongNormal
  let invMass1a := if c1.isStatic then (0 : ℝ) else 1 / c1.mass
  let invMass2a := if c2.isStatic then (0 : ℝ) else 1 / c2.mass
  let ratio := c1.mass / c2.mass
  let invMass1 := if ratio > 10 then (0 : ℝ) else invMass1a
  let invMass2 := if ratio < 0.1 then (0 : ℝ) else invMass2a
  if invMass1 + invMass2 = 0 then (c1p, c2p)
  else
    let j := j0 / (invMass1 + invMass2)
    let impulse := Vec2.scale normal j
    let tangent := Vec2.norm (Vec2.sub rv (Vec2.scale normal (Vec2.dot rv normal)))
    let jt0 := -(Vec2.dot rv tangent) / (invMass1 + invMass2)
    let mu : ℝ := 0.3
    let jt := if |jt0| < j * mu then jt0 else -(j * mu)
    let frictionImpulse := Vec2.scale tangent (jt * 0.5)
    let c1i :=
      if c1.isStatic = false then
        { c1p with vx := c1p.vx + impulse.x * invMass1,
                   vy := c1p.vy + impulse.y * invMass1 }
      else c1p
    let c2i :=
      if c2.isStatic = false then
        { c2p with vx := c2p.vx - impulse.x * invMass2,
                   vy := c2p.vy - impulse.y * invMass2 }
      else c2p
    let c1f :=
      if c1.isStatic = false then
        { c1i with vx := c1i.vx + frictionImpulse.x * invMass1,
                   vy := c1i.vy + frictionImpulse.y * invMass1 }
      else c1i
    let c2f :=
      if c2.isStatic = false then
        { c2i with vx := c2i.vx - frictionImpulse.x * invMass2,
                   vy := c2i.vy - frictionImpulse.y * invMass2 }
      else c2i
    (c1f, c2f)

/-- The body of `resolveCollision` once SAT has reported an overlap
(lines 546-713): positional correction with weld suppression, velocity
weld, separating check, impulse resolution. -/
def resolveCollisionAt (c1 c2 : Component) (overlap : ℝ) (axis : Vec2) :
    Component × Component :=
  let sep := collisionSep c1 c2 overlap axis
  let c1p := posCorrect1 c1 c2 sep
  let c2p := posCorrect2 c1 c2 sep
  let normal := Vec2.norm sep
  let rv := Vec2.sub ⟨c1.vx, c1.vy⟩ ⟨c2.vx, c2.vy⟩
  if Vec2.mag rv < 3 then velWeld c1 c2 c1p c2p
  else if Vec2.dot rv normal > 0 then (c1p, c2p)
  else impulseApply c1 c2 c1p c2p normal rv

/-- `resolveCollision` (lines 539-714) as a pure state transformer on
the pair.  Mirrors the source block by block: early exit when both
bodies are static or SAT finds no overlap, then `resolveCollisionAt`. -/
def resolveCollision (c1 c2 : Component) : Component × Component :=
  if c1.isStatic = true ∧ c2.isStatic = true then (c1, c2)
  else
    match satTest c1.getCorners c2.getCorners with
    | none => (c1, c2)
    | some res => resolveCollisionAt c1 c2 res.1 res.2

/-! ## A body's view of one tick (for the pinned-body invariant)

`updatePhysics` (lines 337-536) touches a body's velocity only through
`applyForce` calls (the magnetic phase), its own `motionUpdate`, and
`resolveCollision` with other bodies.  The pipeline below abstracts one
tick from a single body's viewpoint, quantifying over an arbitrary list
of force applications and an arbitrary list of collision partners (with
the flag telling whether the body is the first or second argument). -/

/-- Fold an arbitrary list of `(force, worldPoint)` applications. -/
def applyForces (c : Component) (fs : List (Vec2 × Vec2)) : Component :=
  fs.foldl (fun a fp => a.applyForce fp.1 fp.2) c

/-- Fold an arbitrary list of collision resolutions against partner
bodies; `true` means the body is the first argument of
`resolveCollision`. -/
def collideAll (c : Component) (ps : List (Component × Bool)) : Component :=
  ps.foldl (fun a p => if p.2 then (resolveCollision a p.1).1 else (resolveCollision p.1 a).2) c

/-- One tick as seen by a single body: force phase, motion update,
collision phase. -/
def tickOn (fs : List (Vec2 × Vec2)) (W H : ℝ) (ps : List (Component × Bool))
    (c : Component) : Component :=
  collideAll (motionUpdate W H (applyForces c fs)) ps

/-! ## Specification predicates and concrete fixtures -/

/-- The SAT specification at a pair of polygons: `satTest` reports no
collision exactly when some of the eight edge-normal axes separates the
projection intervals; otherwise the returned overlap is the minimum
projection overlap over the axes, returned together with an axis
attaining it. -/
def SatTestSpec (poly1 poly2 : List Vec2) : Prop :=
  (satTest poly1 poly2 = none ↔
     ∃ ax ∈ getAxes poly1 ++ getAxes poly2,
       ¬ overlapsP (project poly1 ax) (project poly2 ax)) ∧
  (∀ o a, satTest poly1 poly2 = some (o, a) →
     a ∈ getAxes poly1 ++ getAxes poly2 ∧
     o = getOverlap (project poly1 a) (project poly2 a) ∧
     (∀ ax ∈ getAxes poly1 ++ getAxes poly2,
        overlapsP (project poly1 ax) (project poly2 ax) ∧
        o ≤ getOverlap (project poly1 ax) (project poly2 ax)))

/-- A pole at the origin (used to exercise the `d = 0` case). -/
def poleO : Pole := ⟨PoleKind.N, ⟨0, 0⟩, 1⟩

/-- A source pole for the symmetry fixture. -/
def pW1 : Pole := ⟨PoleKind.N, ⟨0, 0⟩, 1⟩

/-- A target pole 100 units to the right of `pW1`. -/
def pW2 : Pole := ⟨PoleKind.N, ⟨100, 0⟩, 1⟩

/-- A non-static source bar magnet for the symmetry fixture. -/
def magnetW : Component :=
  { type := "bar_magnet", x := 0, y := 0, rotation := 0, vx := 0, vy := 0,
    angV := 0, mass := 10, momentInertia := 1000, isStatic := false,
    needleAngle := 0, width := 80, height := 40 }

/-- A non-static target bar magnet for the symmetry fixture (mass ratio
1, so the light-object suppression does not fire). -/
def objW : Component :=
  { type := "bar_magnet", x := 100, y := 0, rotation := 0, vx := 0, vy := 0,
    angV := 0, mass := 10, momentInertia := 1000, isStatic := false,
    needleAngle := 0, width := 80, height := 40 }

/-- Corners of a 2x2 axis-aligned box centered at the origin. -/
def boxPoly1 : List Vec2 := [⟨-1, -1⟩, ⟨1, -1⟩, ⟨1, 1⟩, ⟨-1, 1⟩]

/-- Corners of a 2x2 axis-aligned box centered at `(3/2, 0)`:
it overlaps `boxPoly1` by `1/2` along the x-axis. -/
def boxPoly2 : List Vec2 := [⟨1/2, -1⟩, ⟨5/2, -1⟩, ⟨5/2, 1⟩, ⟨1/2, 1⟩]

/-- A generic 2x2 test body centered at the origin; callers override the
velocity/static fields. -/
def box0 : Component :=
  { type := "test_box", x := 0, y := 0, rotation := 0, vx := 0, vy := 0,
    angV := 0, mass := 1, momentInertia := 1000, isStatic := false,
    needleAngle := 0, width := 2, height := 2 }

/-- A 2x2 test body at `(3/2, 0)`, overlapping `box0` by `1/2`. -/
def box1 : Component := { box0 with x := 3/2 }

/-- Left body of the head-on restitution fixture: moving right at 2. -/
def cRest1 : Component := { box0 with vx := 2 }

/-- Right body of the head-on restitution fixture: moving left at 2. -/
def cRest2 : Component := { box1 with vx := -2 }

/-- Pinned body of the pinned-weld fixture (mass 10, slow drift). -/
def cPin : Component := { box0 with isStatic := true, mass := 10, vx := 1/2 }

/-- Free body of the pinned-weld fixture. -/
def cFree : Component := { box1 with vx := 0 }

/-- First body of the welded-pair fixture: common velocity `(1, 0)`. -/
def cWeld1 : Component := { box0 with vx := 1 }

/-- Second body of the welded-pair fixture: same velocity `(1, 0)`. -/
def cWeld2 : Component := { box1 with vx := 1 }

/-- A pinned body with nonzero stored velocity fields, for the pinned
frame property. -/
def cStat : Component := { box0 with isStatic := true, vx := 7, vy := -3, angV := 2 }

/-- A body heading out of the left boundary at `(-5, 0)` from `x = 10`. -/
def cLeft : Component := { box0 with x := 10, y := 300, vx := -5, vy := 0 }

/-! ## Basic vector lemmas -/

lemma Vec2.mag_nonneg (v : Vec2) : 0 ≤ v.mag := Real.sqrt_nonneg _

lemma Vec2.mag_scale (v : Vec2) (s : ℝ) : (Vec2.scale v s).mag = |s| * v.mag := by
  unfold Vec2.mag Vec2.scale
  rw [show v.x * s * (v.x * s) + v.y * s * (v.y * s)
        = (s * s) * (v.x * v.x + v.y * v.y) by ring]
  rw [Real.sqrt_mul (mul_self_nonneg s), Real.sqrt_mul_self_eq_abs]

lemma Vec2.mag_mk_zero : Vec2.mag ⟨0, 0⟩ = 0 := by
  unfold Vec2.mag; norm_num

lemma Vec2.norm_mk_zero : Vec2.norm ⟨0, 0⟩ = ⟨0, 0⟩ := by
  unfold Vec2.norm; norm_num

lemma Vec2.mag_norm_le_one (v : Vec2) : (Vec2.norm v).mag ≤ 1 := by
  unfold Vec2.norm
  by_cases h : Real.sqrt (v.x * v.x + v.y * v.y) = 0
  · simp only [h, if_pos]
    simp [Vec2.mag_mk_zero]
  · simp only [h, if_neg, if_false]
    have hpos : 0 < Real.sqrt (v.x * v.x + v.y * v.y) :=
      lt_of_le_of_ne (Real.sqrt_nonneg _) (Ne.symm h)
    have hsq : Real.sqrt (v.x * v.x + v.y * v.y) * Real.sqrt (v.x * v.x + v.y * v.y)
        = v.x * v.x + v.y * v.y :=
      Real.mul_self_sqrt (add_nonneg (mul_self_nonneg _) (mul_self_nonneg _))
    unfold Vec2.mag
    have : (v.x / Real.sqrt (v.x * v.x + v.y * v.y)) * (v.x / Real.sqrt (v.x * v.x + v.y * v.y))
        + (v.y / Real.sqrt (v.x * v.x + v.y * v.y)) * (v.y / Real.sqrt (v.x * v.x + v.y * v.y))
        = 1 := by
      field_simp
      linarith [hsq]
    rw [this, Real.sqrt_one]

/-- The normalized vector is zero or a unit vector (for the impulse
algebra: `n · n = 1` for a nonzero normal). -/
lemma Vec2.norm_eq_zero_or_unit (v : Vec2) :
    Vec2.norm v = ⟨0, 0⟩ ∨ Vec2.dot (Vec2.norm v) (Vec2.norm v) = 1 := by
  unfold Vec2.norm
  by_cases h : Real.sqrt (v.x * v.x + v.y * v.y) = 0
  · left; simp [h]
  · right
    simp only [h, if_neg, if_false]
    have hsq : Real.sqrt (v.x * v.x + v.y * v.y) * Real.sqrt (v.x * v.x + v.y * v.y)
        = v.x * v.x + v.y * v.y :=
      Real.mul_self_sqrt (add_nonneg (mul_self_nonneg _) (mul_self_nonneg _))
    unfold Vec2.dot
    field_simp
    linarith [hsq]

/-- Magnitude is symmetric in the order of subtraction. -/
lemma Vec2.mag_sub_comm (a b : Vec2) : (Vec2.sub a b).mag = (Vec2.sub b a).mag := by
  unfold Vec2.mag Vec2.sub
  ring_nf

/-- A scaled unit-or-zero vector is bounded by the scale bound. -/
lemma Vec2.mag_scale_norm_le {u : Vec2} {s bound : ℝ} (hs : |s| ≤ bound) :
    (Vec2.scale (Vec2.norm u) s).mag ≤ bound := by
  rw [Vec2.mag_scale]
  calc |s| * (Vec2.norm u).mag ≤ bound * 1 :=
        mul_le_mul hs (Vec2.mag_norm_le_one u) (Vec2.mag_nonneg _) ((abs_nonneg s).trans hs)
    _ = bound := mul_one bound

/-! ## C4: magnet-magnet force magnitude never exceeds 2000 -/

/-- C4.  For every pair of bar-magnet poles at any separation (down to
`d = 0`), whenever the magnet-magnet force model applies a force — i.e.
the pair is within the 300-unit range — its magnitude, after the
15-unit minimum-distance clamp, the 40-to-15-unit linear ramp and the
±2000 ceiling clamp, never exceeds 2000. -/
theorem magnetPoleForce_bounded (p1 p2 : Pole) (F : Vec2)
    (h : magnetPoleForce p1 p2 = some F) : F.mag ≤ 2000 := by
  simp only [magnetPoleForce] at h
  split_ifs at h <;>
    first
      | exact Option.noConfusion h
      | (injection h with hF
         rw [← hF]
         apply Vec2.mag_scale_norm_le
         rw [abs_le]
         refine ⟨by linarith, by linarith⟩)

/-! ## Evaluation helpers -/

/-- Evaluate a square root at a perfect square. -/
lemma sqrt_eval {a m : ℝ} (hm : 0 ≤ m) (h : m * m = a) : Real.sqrt a = m := by
  rw [← h, Real.sqrt_mul_self hm]

lemma Vec2.mag_norm_eq_one (v : Vec2)
    (h : Real.sqrt (v.x * v.x + v.y * v.y) ≠ 0) : (Vec2.norm v).mag = 1 := by
  unfold Vec2.norm
  simp only [h, if_neg, if_false]
  have hsq : Real.sqrt (v.x * v.x + v.y * v.y) * Real.sqrt (v.x * v.x + v.y * v.y)
      = v.x * v.x + v.y * v.y :=
    Real.mul_self_sqrt (add_nonneg (mul_self_nonneg _) (mul_self_nonneg _))
  unfold Vec2.mag
  have heq : (v.x / Real.sqrt (v.x * v.x + v.y * v.y)) * (v.x / Real.sqrt (v.x * v.x + v.y * v.y))
      + (v.y / Real.sqrt (v.x * v.x + v.y * v.y)) * (v.y / Real.sqrt (v.x * v.x + v.y * v.y))
      = 1 := by
    field_simp
    linarith [hsq]
  rw [heq, Real.sqrt_one]

/-- Evaluate `Vec2.norm` given the (positive) magnitude. -/
lemma Vec2.norm_eval {x y m : ℝ} (hm : 0 < m) (h : x * x + y * y = m * m) :
    Vec2.norm ⟨x, y⟩ = ⟨x / m, y / m⟩ := by
  have hs : Real.sqrt (x * x + y * y) = m := by rw [h, Real.sqrt_mul_self hm.le]
  unfold Vec2.norm
  simp only [hs]
  rw [if_neg hm.ne']

lemma Component.applyForce_static {c : Component} (h : c.isStatic = true)
    (f p : Vec2) : c.applyForce f p = c := by
  simp [Component.applyForce, h]

/-! ## C4 witness: poles at distance 0 -/

lemma magnetPoleForce_poleO : magnetPoleForce poleO poleO = some ⟨0, 0⟩ := by
  have h15 : max (Real.sqrt ((0:ℝ) * 0 + 0 * 0)) 15 = 15 := by
    rw [show (0:ℝ) * 0 + 0 * 0 = 0 by ring, Real.sqrt_zero]
    norm_num
  simp only [magnetPoleForce, poleO, Pole.charge, Vec2.sub, MAGNETIC_CONSTANT]
  norm_num [h15, Vec2.norm_mk_zero, Vec2.scale]

/-- C4 witness: two poles at the same position (`d = 0`) get a force of
magnitude `0 ≤ 2000`. -/
theorem magnetPoleForce_bounded_witness :
    magnetPoleForce poleO poleO = some ⟨0, 0⟩ ∧ Vec2.mag ⟨0, 0⟩ ≤ 2000 :=
  ⟨magnetPoleForce_poleO,
   magnetPoleForce_bounded poleO poleO ⟨0, 0⟩ magnetPoleForce_poleO⟩

/-! ## C5: action/reaction symmetry with light-object suppression -/

/-- C5.  For each magnet-magnet pole pair that is within range (a force
`F` is applied): the target `obj` receives `F` at its pole; the source
`magnet` receives exactly the opposite force `-F` at its pole — equal in
magnitude and opposite in direction — unless the magnet is not pinned
and `obj`'s mass is under a tenth of the magnet's, in which case the
reaction is suppressed entirely and the magnet is left unchanged.  (When
the magnet is pinned, `applyForce` is a no-op, so applying `-F` equals
the source's skip.) -/
theorem polePairInteract_symmetry (magnet obj : Component) (p1 p2 : Pole) (F : Vec2)
    (hF : magnetPoleForce p1 p2 = some F) :
    (polePairInteract magnet obj p1 p2).2 = obj.applyForce F p2.pos ∧
    (polePairInteract magnet obj p1 p2).1 =
      (if magnet.isStatic = false ∧ obj.mass / magnet.mass < 0.1 then magnet
       else magnet.applyForce (Vec2.scale F (-1)) p1.pos) ∧
    (Vec2.scale F (-1)).mag = F.mag ∧
    Vec2.add (Vec2.scale F (-1)) F = ⟨0, 0⟩ := by
  refine ⟨?_, ?_, ?_, ?_⟩
  · simp only [polePairInteract, hF]
  · simp only [polePairInteract, hF]
    by_cases hs : magnet.isStatic = false
    · by_cases hr : obj.mass / magnet.mass < 0.1
      · simp [hs, hr]
      · have : (-1 : ℝ) * 1 = -1 := by norm_num
        simp [hs, hr, this]
    · have hs' : magnet.isStatic = true := by
        cases h : magnet.isStatic
        · exact absurd h hs
        · rfl
      simp [hs', Component.applyForce_static hs']
  · rw [Vec2.mag_scale]
    norm_num
  · simp only [Vec2.add, Vec2.scale, Vec2.mk.injEq]
    constructor <;> ring

lemma magnetPoleForce_pW : magnetPoleForce pW1 pW2 = some ⟨3/2, 0⟩ := by
  have hs : Real.sqrt (10000:ℝ) = 100 := sqrt_eval (by norm_num) (by norm_num)
  have hmax : (100:ℝ) ⊔ 15 = 100 := max_eq_left (by norm_num)
  have hnorm : Vec2.norm ⟨(100:ℝ), 0⟩ = ⟨1, 0⟩ := by
    rw [Vec2.norm_eval (show (0:ℝ) < 100 by norm_num) (by norm_num)]
    norm_num
  simp only [magnetPoleForce, pW1, pW2, Pole.charge, Vec2.sub, MAGNETIC_CONSTANT]
  norm_num [hs, hmax, hnorm, Vec2.scale]

/-- C5 witness: two north poles 100 units apart on two non-pinned
magnets of equal mass: the repulsive force `(3/2, 0)` is applied to the
target and its exact opposite to the source. -/
theorem polePairInteract_symmetry_witness :
    magnetPoleForce pW1 pW2 = some ⟨3/2, 0⟩ ∧
    (polePairInteract magnetW objW pW1 pW2).2 = objW.applyForce ⟨3/2, 0⟩ pW2.pos ∧
    (polePairInteract magnetW objW pW1 pW2).1 =
      (if magnetW.isStatic = false ∧ objW.mass / magnetW.mass < 0.1 then magnetW
       else magnetW.applyForce (Vec2.scale ⟨3/2, 0⟩ (-1)) pW1.pos) ∧
    (Vec2.scale (⟨3/2, 0⟩ : Vec2) (-1)).mag = Vec2.mag ⟨3/2, 0⟩ ∧
    Vec2.add (Vec2.scale ⟨3/2, 0⟩ (-1)) ⟨3/2, 0⟩ = ⟨0, 0⟩ := by
  have h := polePairInteract_symmetry magnetW objW pW1 pW2 ⟨3/2, 0⟩ magnetPoleForce_pW
  exact ⟨magnetPoleForce_pW, h.1, h.2.1, h.2.2.1, h.2.2.2⟩

/-! ## C6: soft-ferromagnetic attraction window -/

/-- C6 counterexample.  The claim says the force applies only when the
squared distance is strictly between 100 and 60000 and that outside
that window no force is applied; but at squared distance exactly 100
(end point `(10, 0)`, pole `(0, 0)`) the source applies the nonzero
force `(-75, 0)`: the source's guard is `distSq < 100 || distSq > 60000`,
an inclusive window `[100, 60000]`. -/
theorem softForce_strict_window_counterexample :
    ((10:ℝ) - 0) * ((10:ℝ) - 0) + ((0:ℝ) - 0) * ((0:ℝ) - 0) = 100 ∧
    ¬((100:ℝ) < 100 ∧ (100:ℝ) < 60000) ∧
    softForce ⟨10, 0⟩ ⟨0, 0⟩ = some ⟨-75, 0⟩ ∧
    some (⟨-75, 0⟩ : Vec2) ≠ none := by
  refine ⟨by norm_num, by norm_num, ?_, by simp⟩
  have hnorm : Vec2.norm ⟨(10:ℝ), 0⟩ = ⟨1, 0⟩ := by
    rw [Vec2.norm_eval (show (0:ℝ) < 10 by norm_num) (by norm_num)]
    norm_num
  simp only [softForce, Vec2.sub, MAGNETIC_CONSTANT]
  norm_num [hnorm, Vec2.scale]

/-- C6 amended.  For every nail/key end point and every pole: when the
squared distance lies in the inclusive window `[100, 60000]`, the
applied force points from the end point toward the pole (attraction,
for either pole sign: the pole kind is not even consulted) with
magnitude `(K * 0.5) / distSq`; outside that window (strictly below 100
or strictly above 60000) no force is applied. -/
theorem softForce_spec (pt polePos : Vec2) (distSq : ℝ)
    (hd : distSq = (pt.x - polePos.x) * (pt.x - polePos.x)
        + (pt.y - polePos.y) * (pt.y - polePos.y)) :
    ((100 ≤ distSq ∧ distSq ≤ 60000) →
       ∃ F, softForce pt polePos = some F ∧
         F.mag = MAGNETIC_CONSTANT * 0.5 / distSq ∧
         ∃ t, 0 < t ∧ F = Vec2.scale (Vec2.sub polePos pt) t) ∧
    ((distSq < 100 ∨ distSq > 60000) → softForce pt polePos = none) := by
  constructor
  · rintro ⟨hlo, hhi⟩
    have hwin : ¬((pt.x - polePos.x) * (pt.x - polePos.x)
        + (pt.y - polePos.y) * (pt.y - polePos.y) < 100 ∨
        (pt.x - polePos.x) * (pt.x - polePos.x)
        + (pt.y - polePos.y) * (pt.y - polePos.y) > 60000) := by
      rw [← hd]; push_neg; exact ⟨hlo, hhi⟩
    have hpos : (0:ℝ) < distSq := by linarith
    have hsq : Real.sqrt ((pt.x - polePos.x) * (pt.x - polePos.x)
        + (pt.y - polePos.y) * (pt.y - polePos.y)) ≠ 0 := by
      refine Real.sqrt_ne_zero'.mpr ?_
      rw [← hd]
      linarith
    have hmagpos : 0 < Real.sqrt ((pt.x - polePos.x) * (pt.x - polePos.x)
        + (pt.y - polePos.y) * (pt.y - polePos.y)) :=
      lt_of_le_of_ne (Real.sqrt_nonneg _) (Ne.symm hsq)
    refine ⟨Vec2.scale (Vec2.norm (Vec2.sub pt polePos))
        (-1 * (MAGNETIC_CONSTANT * 0.5) / ((pt.x - polePos.x) * (pt.x - polePos.x)
          + (pt.y - polePos.y) * (pt.y - polePos.y))), ?_, ?_, ?_⟩
    · simp only [softForce, Vec2.sub]
      rw [if_neg hwin]
    · rw [Vec2.mag_scale]
      have h1 : (Vec2.norm (Vec2.sub pt polePos)).mag = 1 := by
        apply Vec2.mag_norm_eq_one
        simpa [Vec2.sub] using hsq
      have hnp : -1 * (MAGNETIC_CONSTANT * 0.5) / distSq ≤ 0 :=
        div_nonpos_iff.mpr (Or.inr ⟨by rw [MAGNETIC_CONSTANT]; norm_num, hpos.le⟩)
      rw [h1, mul_one, ← hd, abs_of_nonpos hnp]
      ring
    · set s := Real.sqrt ((pt.x - polePos.x) * (pt.x - polePos.x)
        + (pt.y - polePos.y) * (pt.y - polePos.y)) with hsdef
      refine ⟨MAGNETIC_CONSTANT * 0.5 / ((pt.x - polePos.x) * (pt.x - polePos.x)
        + (pt.y - polePos.y) * (pt.y - polePos.y)) / s, ?_, ?_⟩
      · have : (0:ℝ) < (pt.x - polePos.x) * (pt.x - polePos.x)
            + (pt.y - polePos.y) * (pt.y - polePos.y) := by rw [← hd]; exact hpos
        rw [MAGNETIC_CONSTANT]
        positivity
      · simp only [Vec2.norm, Vec2.sub, Vec2.scale, ← hsdef]
        rw [if_neg hsq]
        simp only [Vec2.mk.injEq]
        constructor <;> (field_simp; ring)
  · intro h
    simp only [softForce, Vec2.sub]
    rw [if_pos]
    rw [← hd]
    exact h

/-- C6 witness: end point `(20, 0)`, pole `(0, 0)`, squared distance
400 inside the window: an attractive force of magnitude `7500 / 400`
towards the pole is applied. -/
theorem softForce_spec_witness :
    (400:ℝ) = ((20:ℝ) - 0) * ((20:ℝ) - 0) + ((0:ℝ) - 0) * ((0:ℝ) - 0) ∧
    (100:ℝ) ≤ 400 ∧ (400:ℝ) ≤ 60000 ∧
    (∃ F, softForce ⟨20, 0⟩ ⟨0, 0⟩ = some F ∧
       F.mag = MAGNETIC_CONSTANT * 0.5 / 400 ∧
       ∃ t, 0 < t ∧ F = Vec2.scale (Vec2.sub ⟨0, 0⟩ ⟨20, 0⟩) t) := by
  refine ⟨by norm_num, by norm_num, by norm_num, ?_⟩
  exact (softForce_spec ⟨20, 0⟩ ⟨0, 0⟩ 400 (by norm_num)).1 ⟨by norm_num, by norm_num⟩

/-! ## C7: unknown body kind at creation -/

/-- C7 counterexample.  The claim says creating a body with a kind
outside the six known kinds is rejected with a caller-visible error and
no body is added; but the constructor is total: `new Component("wood",
100, 100)` succeeds, producing a body with the default 60x60 size and
mass 1 (the drop handler then pushes it into `components`
unconditionally, line 1074). -/
theorem create_unknown_kind_counterexample :
    (Component.create "wood" 100 100).width = 60 ∧
    (Component.create "wood" 100 100).height = 60 ∧
    (Component.create "wood" 100 100).mass = 1 ∧
    (Component.create "wood" 100 100).x = 100 ∧
    (Component.create "wood" 100 100).isStatic = false := by
  refine ⟨?_, ?_, ?_, ?_, ?_⟩ <;> rfl

/-- C7 amended.  Creation with a kind outside the six known kinds is
not rejected: the constructor succeeds for every kind string and falls
back to the default size 60x60 and mass 1. -/
theorem create_unknown_kind_default (t : String) (x y : ℝ)
    (h : t ∉ (["bar_magnet", "iron_nail", "compass", "key", "eraser", "coin"] : List String)) :
    (Component.create t x y).width = 60 ∧ (Component.create t x y).height = 60 ∧
    (Component.create t x y).mass = 1 ∧ (Component.create t x y).isStatic = false := by
  simp only [List.mem_cons, List.mem_singleton, not_or] at h
  obtain ⟨h1, h2, h3, h4, h5, h6, -⟩ := h
  simp [Component.create, Component.setSize, h1, h2, h3, h4, h5, h6]

/-- C7 witness: the unknown kind `"wood"` gets the defaults. -/
theorem create_unknown_kind_default_witness :
    ("wood" ∉ (["bar_magnet", "iron_nail", "compass", "key", "eraser", "coin"] : List String)) ∧
    ((Component.create "wood" 5 6).width = 60 ∧ (Component.create "wood" 5 6).height = 60 ∧
     (Component.create "wood" 5 6).mass = 1 ∧ (Component.create "wood" 5 6).isStatic = false) :=
  ⟨by decide, create_unknown_kind_default "wood" 5 6 (by decide)⟩

/-! ## C9: left-boundary bounce -/

/-- C9.  A body at `x < 20` (past the left margin) with velocity
`(-5, 0)` is, by the bounds step of the integrator (lines 518-523),
repositioned to `x = 20` and its x-velocity multiplied by `-0.5`,
leaving velocity `(2.5, 0)`.  `40 < W` says the canvas is wider than
its two margins, as on any real canvas. -/
theorem boundsCheck_left_bounce (W H : ℝ) (c : Component)
    (hx : c.x < 20) (hvx : c.vx = -5) (hvy : c.vy = 0) (hW : 40 < W) :
    (boundsCheck W H c).x = 20 ∧ (boundsCheck W H c).vx = 2.5 ∧
    (boundsCheck W H c).vy = 0 := by
  simp only [boundsCheck]
  rw [if_pos hx]
  rw [if_neg (show ¬(({ c with x := 20, vx := c.vx * (-0.5) } : Component).x > W - 20) by
    simpa using by linarith)]
  split_ifs <;> simp [hvx, hvy] <;> norm_num

/-- C9 witness: the concrete body `cLeft` on an 800x600 canvas. -/
theorem boundsCheck_left_bounce_witness :
    cLeft.x < 20 ∧ cLeft.vx = -5 ∧ cLeft.vy = 0 ∧ (40:ℝ) < 800 ∧
    (boundsCheck 800 600 cLeft).x = 20 ∧ (boundsCheck 800 600 cLeft).vx = 2.5 ∧
    (boundsCheck 800 600 cLeft).vy = 0 := by
  have h := boundsCheck_left_bounce 800 600 cLeft (by norm_num [cLeft, box0])
    (by norm_num [cLeft, box0]) (by norm_num [cLeft, box0]) (by norm_num)
  exact ⟨by norm_num [cLeft, box0], by norm_num [cLeft, box0], by norm_num [cLeft, box0],
    by norm_num, h.1, h.2.1, h.2.2⟩

/-! ## C8: a pinned body's velocity through a tick -/

lemma applyForces_static {c : Component} (h : c.isStatic = true)
    (fs : List (Vec2 × Vec2)) : applyForces c fs = c := by
  induction fs with
  | nil => rfl
  | cons f fs ih =>
      unfold applyForces at ih ⊢
      rw [List.foldl_cons, Component.applyForce_static h, ih]

lemma motionUpdate_static {c : Component} (h : c.isStatic = true) (W H : ℝ) :
    motionUpdate W H c = c := by
  unfold motionUpdate
  rw [if_pos h]

lemma posCorrect1_static {c1 : Component} (c2 : Component) (sep : Vec2)
    (h : c1.isStatic = true) : posCorrect1 c1 c2 sep = c1 := by
  simp [posCorrect1, h]

lemma posCorrect2_static (c1 : Component) {c2 : Component} (sep : Vec2)
    (h : c2.isStatic = true) : posCorrect2 c1 c2 sep = c2 := by
  simp [posCorrect2, h]

lemma velWeld_fst_static {c1 : Component} (c2 c1p c2p : Component)
    (h : c1.isStatic = true) : (velWeld c1 c2 c1p c2p).1 = c1p := by
  simp [velWeld, h]

lemma velWeld_snd_static (c1 : Component) {c2 : Component} (c1p c2p : Component)
    (h : c2.isStatic = true) : (velWeld c1 c2 c1p c2p).2 = c2p := by
  simp [velWeld, h]

lemma impulseApply_fst_static {c1 : Component} (c2 c1p c2p : Component)
    (normal rv : Vec2) (h : c1.isStatic = true) :
    (impulseApply c1 c2 c1p c2p normal rv).1 = c1p := by
  simp only [impulseApply, h]
  split_ifs <;> first | rfl | exact False.elim (by assumption)

lemma impulseApply_snd_static (c1 : Component) {c2 : Component} (c1p c2p : Component)
    (normal rv : Vec2) (h : c2.isStatic = true) :
    (impulseApply c1 c2 c1p c2p normal rv).2 = c2p := by
  simp only [impulseApply, h]
  split_ifs <;> first | rfl | exact False.elim (by assumption)

lemma resolveCollisionAt_fst_static (c1 c2 : Component) (o : ℝ) (a : Vec2)
    (h : c1.isStatic = true) : (resolveCollisionAt c1 c2 o a).1 = c1 := by
  have hp := posCorrect1_static c2 (collisionSep c1 c2 o a) h
  simp only [resolveCollisionAt]
  split_ifs with h1 h2
  · rw [velWeld_fst_static _ _ _ h, hp]
  · exact hp
  · rw [impulseApply_fst_static _ _ _ _ _ h, hp]

lemma resolveCollisionAt_snd_static (c1 c2 : Component) (o : ℝ) (a : Vec2)
    (h : c2.isStatic = true) : (resolveCollisionAt c1 c2 o a).2 = c2 := by
  have hp := posCorrect2_static c1 (collisionSep c1 c2 o a) h
  simp only [resolveCollisionAt]
  split_ifs with h1 h2
  · rw [velWeld_snd_static _ _ _ h, hp]
  · exact hp
  · rw [impulseApply_snd_static _ _ _ _ _ h, hp]

lemma resolveCollision_fst_static (c1 c2 : Component) (h : c1.isStatic = true) :
    (resolveCollision c1 c2).1 = c1 := by
  unfold resolveCollision
  split_ifs with hb
  · rfl
  · rcases hs : satTest c1.getCorners c2.getCorners with - | ⟨o, a⟩
    · rfl
    · exact resolveCollisionAt_fst_static c1 c2 o a h

lemma resolveCollision_snd_static (c1 c2 : Component) (h : c2.isStatic = true) :
    (resolveCollision c1 c2).2 = c2 := by
  unfold resolveCollision
  split_ifs with hb
  · rfl
  · rcases hs : satTest c1.getCorners c2.getCorners with - | ⟨o, a⟩
    · rfl
    · exact resolveCollisionAt_snd_static c1 c2 o a h

lemma collideAll_static {c : Component} (h : c.isStatic = true)
    (ps : List (Component × Bool)) : collideAll c ps = c := by
  induction ps with
  | nil => rfl
  | cons p ps ih =>
      unfold collideAll at ih ⊢
      rw [List.foldl_cons]
      cases hb : p.2 with
      | true => rw [if_pos rfl, resolveCollision_fst_static _ _ h, ih]
      | false => rw [if_neg (by simp [hb]), resolveCollision_snd_static _ _ h, ih]

/-- A static body is a fixed point of the whole tick pipeline. -/
lemma tickOn_static {c : Component} (h : c.isStatic = true)
    (fs : List (Vec2 × Vec2)) (W H : ℝ) (ps : List (Component × Bool)) :
    tickOn fs W H ps c = c := by
  unfold tickOn
  rw [applyForces_static h, motionUpdate_static h, collideAll_static h]

/-- C8.  A pinned (`isStatic`) body's linear and angular velocity are
untouched by any force application, by the integrator, and by any weld
or impulse of the collision resolver during a tick; and the dragged
body, which the tick's first step resets (`dragReset`), ends the tick
with both velocities exactly zero.  (In the program a body only becomes
static through the drag path, which zeroes its velocities, so every
pinned body's velocities are zero after every tick.) -/
theorem pinned_tick_velocity (c : Component) (fs : List (Vec2 × Vec2)) (W H : ℝ)
    (ps : List (Component × Bool)) :
    (c.isStatic = true →
       (tickOn fs W H ps c).vx = c.vx ∧ (tickOn fs W H ps c).vy = c.vy ∧
       (tickOn fs W H ps c).angV = c.angV) ∧
    ((tickOn fs W H ps (dragReset c)).vx = 0 ∧
     (tickOn fs W H ps (dragReset c)).vy = 0 ∧
     (tickOn fs W H ps (dragReset c)).angV = 0) := by
  constructor
  · intro h
    rw [tickOn_static h]
    exact ⟨rfl, rfl, rfl⟩
  · rw [tickOn_static (show (dragReset c).isStatic = true from rfl)]
    exact ⟨rfl, rfl, rfl⟩

/-- C8 witness: a concrete pinned body with stale velocity fields, no
forces, an 800x600 canvas, one collision partner. -/
theorem pinned_tick_velocity_witness :
    (cStat.isStatic = true →
       (tickOn [] 800 600 [(box1, true)] cStat).vx = cStat.vx ∧
       (tickOn [] 800 600 [(box1, true)] cStat).vy = cStat.vy ∧
       (tickOn [] 800 600 [(box1, true)] cStat).angV = cStat.angV) ∧
    ((tickOn [] 800 600 [(box1, true)] (dragReset cStat)).vx = 0 ∧
     (tickOn [] 800 600 [(box1, true)] (dragReset cStat)).vy = 0 ∧
     (tickOn [] 800 600 [(box1, true)] (dragReset cStat)).angV = 0) :=
  pinned_tick_velocity cStat [] 800 600 [(box1, true)]

/-! ## C3: the welded state is a fixed point -/

/-- Reduce `resolveCollision` to its overlap branch. -/
lemma resolveCollision_eq_at (c1 c2 : Component) (o : ℝ) (a : Vec2)
    (hb : ¬(c1.isStatic = true ∧ c2.isStatic = true))
    (hs : satTest c1.getCorners c2.getCorners = some (o, a)) :
    resolveCollision c1 c2 = resolveCollisionAt c1 c2 o a := by
  unfold resolveCollision
  rw [if_neg hb, hs]

/-- With a common velocity, every branch of the weld common velocity
returns that velocity. -/
lemma weldCommonVelocity_of_common (c1 c2 : Component)
    (hvx : c1.vx = c2.vx) (hvy : c1.vy = c2.vy)
    (hm1 : 0 < c1.mass) (hm2 : 0 < c2.mass) :
    weldCommonVelocity c1 c2 = (c1.vx, c1.vy) := by
  have hm1' := hm1
  have hm2' := hm2
  simp only [weldCommonVelocity]
  split_ifs <;>
    first
      | rfl
      | exact congrArg₂ Prod.mk hvx.symm hvy.symm
      | (simp only [Prod.mk.injEq]
         rw [← hvx, ← hvy]
         constructor <;> (rw [div_eq_iff (by positivity)]; ring))

/-- C3.  Two bodies moving with a common linear velocity and zero
angular velocities are a fixed point of `resolveCollision`: it changes
neither body's position, velocity nor angular velocity (whether or not
they overlap; on overlap the weld path sets both to the common velocity
they already have and the weld-suppressed positional correction adds
zero).  Masses are positive for all body kinds. -/
theorem resolveCollision_weld_fixed_point (c1 c2 : Component)
    (hvx : c1.vx = c2.vx) (hvy : c1.vy = c2.vy)
    (ha1 : c1.angV = 0) (ha2 : c2.angV = 0)
    (hm1 : 0 < c1.mass) (hm2 : 0 < c2.mass) :
    resolveCollision c1 c2 = (c1, c2) := by
  unfold resolveCollision
  split_ifs with hb
  · rfl
  · rcases hs : satTest c1.getCorners c2.getCorners with - | ⟨o, a⟩
    · rfl
    · have hmag : Vec2.mag (Vec2.sub ⟨c1.vx, c1.vy⟩ ⟨c2.vx, c2.vy⟩) = 0 := by
        rw [show Vec2.sub ⟨c1.vx, c1.vy⟩ ⟨c2.vx, c2.vy⟩ = (⟨0, 0⟩ : Vec2) by
          simp [Vec2.sub, hvx, hvy]]
        exact Vec2.mag_mk_zero
      have hcf : correctionFactor c1 c2 = 0 := by
        unfold correctionFactor
        rw [hmag]
        norm_num
      have hp1 : posCorrect1 c1 c2 (collisionSep c1 c2 o a) = c1 := by
        unfold posCorrect1
        rw [hcf]
        split_ifs
        · ext <;> simp
        · rfl
      have hp2 : posCorrect2 c1 c2 (collisionSep c1 c2 o a) = c2 := by
        unfold posCorrect2
        rw [hcf]
        split_ifs
        · ext <;> simp
        · rfl
      simp only [resolveCollisionAt]
      rw [if_pos (by rw [hmag]; norm_num)]
      unfold velWeld
      rw [weldCommonVelocity_of_common c1 c2 hvx hvy hm1 hm2, hp1, hp2]
      simp only [Prod.mk.injEq]
      constructor
      · split_ifs
        · ext <;> simp [ha1]
        · rfl
      · split_ifs
        · ext <;> simp [ha2, hvx, hvy]
        · rfl

/-- C3 witness: two overlapping boxes with common velocity `(1, 0)` and
zero angular velocity. -/
theorem resolveCollision_weld_fixed_point_witness :
    cWeld1.vx = cWeld2.vx ∧ cWeld1.vy = cWeld2.vy ∧
    cWeld1.angV = 0 ∧ cWeld2.angV = 0 ∧
    0 < cWeld1.mass ∧ 0 < cWeld2.mass ∧
    resolveCollision cWeld1 cWeld2 = (cWeld1, cWeld2) :=
  ⟨rfl, rfl, rfl, rfl, by norm_num [cWeld1, box0], by norm_num [cWeld2, box1, box0],
   resolveCollision_weld_fixed_point cWeld1 cWeld2 rfl rfl rfl rfl
     (by norm_num [cWeld1, box0]) (by norm_num [cWeld2, box1, box0])⟩

/-! ## C10: pinned-body weld dominance -/

/-- With the first body static and the second light (mass under 10000),
the weld picks the static body's velocity outright. -/
lemma weldCommonVelocity_static_fst (c1 c2 : Component)
    (h1 : c1.isStatic = true) (h2 : c2.isStatic = false)
    (hm : 0 < c2.mass) (hm' : c2.mass < 10000) :
    weldCommonVelocity c1 c2 = (c1.vx, c1.vy) := by
  unfold weldCommonVelocity
  rw [h1, h2]
  simp only [if_true, Bool.false_eq_true, if_false]
  rw [if_pos ((lt_div_iff₀ hm).mpr (by linarith))]

/-- With the second body static and the first light, the weld picks the
static body's velocity outright. -/
lemma weldCommonVelocity_static_snd (c1 c2 : Component)
    (h1 : c1.isStatic = false) (h2 : c2.isStatic = true)
    (hm : 0 < c1.mass) (hm' : c1.mass < 10000) :
    weldCommonVelocity c1 c2 = (c2.vx, c2.vy) := by
  unfold weldCommonVelocity
  rw [h1, h2]
  simp only [if_true, Bool.false_eq_true, if_false]
  rw [if_neg (by
      rw [gt_iff_lt, not_lt, div_le_iff₀ (show (0:ℝ) < 100000 by norm_num)]
      linarith),
    if_pos ((lt_div_iff₀ hm).mpr (by linarith))]

/-- C10.  When `resolveCollision` finds a collision between a pinned
body `c1` and a non-pinned body `c2` with relative speed below 3 (in
either argument order), the weld path sets the free body's linear
velocity to the pinned body's and its angular velocity to zero, and
leaves the pinned body entirely unchanged.  The pinned side counts as
mass 100000, so with any table mass (all under 10000) the dominance
branch picks the pinned body's velocity outright. -/
theorem resolveCollision_pinned_dominance (c1 c2 : Component)
    (h1 : c1.isStatic = true) (h2 : c2.isStatic = false)
    (hm : 0 < c2.mass) (hm' : c2.mass < 10000)
    (hrel : Vec2.mag (Vec2.sub ⟨c1.vx, c1.vy⟩ ⟨c2.vx, c2.vy⟩) < 3) :
    (∀ o a, satTest c1.getCorners c2.getCorners = some (o, a) →
       (resolveCollision c1 c2).1 = c1 ∧
       (resolveCollision c1 c2).2.vx = c1.vx ∧
       (resolveCollision c1 c2).2.vy = c1.vy ∧
       (resolveCollision c1 c2).2.angV = 0) ∧
    (∀ o a, satTest c2.getCorners c1.getCorners = some (o, a) →
       (resolveCollision c2 c1).2 = c1 ∧
       (resolveCollision c2 c1).1.vx = c1.vx ∧
       (resolveCollision c2 c1).1.vy = c1.vy ∧
       (resolveCollision c2 c1).1.angV = 0) := by
  constructor
  · intro o a hsat
    rw [resolveCollision_eq_at c1 c2 o a (by simp [h2]) hsat]
    refine ⟨resolveCollisionAt_fst_static c1 c2 o a h1, ?_⟩
    simp only [resolveCollisionAt]
    rw [if_pos hrel]
    unfold velWeld
    rw [weldCommonVelocity_static_fst c1 c2 h1 h2 hm hm']
    rw [if_pos h2]
    exact ⟨rfl, rfl, rfl⟩
  · intro o a hsat
    rw [resolveCollision_eq_at c2 c1 o a (by simp [h2]) hsat]
    refine ⟨resolveCollisionAt_snd_static c2 c1 o a h1, ?_⟩
    simp only [resolveCollisionAt]
    rw [if_pos (by rw [Vec2.mag_sub_comm]; exact hrel)]
    unfold velWeld
    rw [weldCommonVelocity_static_snd c2 c1 h2 h1 hm hm']
    rw [if_pos h2]
    exact ⟨rfl, rfl, rfl⟩

/-! ## Concrete SAT evaluations for the witnesses -/

lemma norm_v01 : Vec2.norm ⟨(0:ℝ), 2⟩ = ⟨0, 1⟩ := by
  rw [Vec2.norm_eval (show (0:ℝ) < 2 by norm_num) (by norm_num)]
  norm_num

lemma norm_v02 : Vec2.norm ⟨(-2:ℝ), 0⟩ = ⟨-1, 0⟩ := by
  rw [Vec2.norm_eval (show (0:ℝ) < 2 by norm_num) (by norm_num)]
  norm_num

lemma norm_v03 : Vec2.norm ⟨(0:ℝ), -2⟩ = ⟨0, -1⟩ := by
  rw [Vec2.norm_eval (show (0:ℝ) < 2 by norm_num) (by norm_num)]
  norm_num

lemma norm_v04 : Vec2.norm ⟨(2:ℝ), 0⟩ = ⟨1, 0⟩ := by
  rw [Vec2.norm_eval (show (0:ℝ) < 2 by norm_num) (by norm_num)]
  norm_num

lemma getAxes_boxPoly1 :
    getAxes boxPoly1 = [⟨0, 1⟩, ⟨-1, 0⟩, ⟨0, -1⟩, ⟨1, 0⟩] := by
  norm_num [getAxes, boxPoly1, List.range_succ, Vec2.sub,
    norm_v01, norm_v02, norm_v03, norm_v04]

lemma getAxes_boxPoly2 :
    getAxes boxPoly2 = [⟨0, 1⟩, ⟨-1, 0⟩, ⟨0, -1⟩, ⟨1, 0⟩] := by
  norm_num [getAxes, boxPoly2, List.range_succ, Vec2.sub,
    norm_v01, norm_v02, norm_v03, norm_v04]

lemma project_b1_up : project boxPoly1 ⟨0, 1⟩ = ⟨-1, 1⟩ := by
  norm_num [project, boxPoly1, Vec2.dot, min_def, max_def]

lemma project_b1_left : project boxPoly1 ⟨-1, 0⟩ = ⟨-1, 1⟩ := by
  norm_num [project, boxPoly1, Vec2.dot, min_def, max_def]

lemma project_b1_down : project boxPoly1 ⟨0, -1⟩ = ⟨-1, 1⟩ := by
  norm_num [project, boxPoly1, Vec2.dot, min_def, max_def]

lemma project_b1_right : project boxPoly1 ⟨1, 0⟩ = ⟨-1, 1⟩ := by
  norm_num [project, boxPoly1, Vec2.dot, min_def, max_def]

lemma project_b2_up : project boxPoly2 ⟨0, 1⟩ = ⟨-1, 1⟩ := by
  norm_num [project, boxPoly2, Vec2.dot, min_def, max_def]

lemma project_b2_left : project boxPoly2 ⟨-1, 0⟩ = ⟨-5/2, -1/2⟩ := by
  norm_num [project, boxPoly2, Vec2.dot, min_def, max_def]

lemma project_b2_down : project boxPoly2 ⟨0, -1⟩ = ⟨-1, 1⟩ := by
  norm_num [project, boxPoly2, Vec2.dot, min_def, max_def]

lemma project_b2_right : project boxPoly2 ⟨1, 0⟩ = ⟨1/2, 5/2⟩ := by
  norm_num [project, boxPoly2, Vec2.dot, min_def, max_def]

set_option maxHeartbeats 1000000 in
lemma satTest_box12 : satTest boxPoly1 boxPoly2 = some (1/2, ⟨-1, 0⟩) := by
  unfold satTest
  rw [getAxes_boxPoly1, getAxes_boxPoly2]
  norm_num [satAux, project_b1_up, project_b1_left, project_b1_down, project_b1_right,
    project_b2_up, project_b2_left, project_b2_down, project_b2_right,
    overlapsP, getOverlap, min_def, max_def]

set_option maxHeartbeats 1000000 in
lemma satTest_box21 : satTest boxPoly2 boxPoly1 = some (1/2, ⟨-1, 0⟩) := by
  unfold satTest
  rw [getAxes_boxPoly1, getAxes_boxPoly2]
  norm_num [satAux, project_b1_up, project_b1_left, project_b1_down, project_b1_right,
    project_b2_up, project_b2_left, project_b2_down, project_b2_right,
    overlapsP, getOverlap, min_def, max_def]

lemma getCorners_axis_aligned (c : Component) (h : c.rotation = 0) :
    c.getCorners = [⟨c.x - c.width / 2, c.y - c.height / 2⟩,
                    ⟨c.x + c.width / 2, c.y - c.height / 2⟩,
                    ⟨c.x + c.width / 2, c.y + c.height / 2⟩,
                    ⟨c.x - c.width / 2, c.y + c.height / 2⟩] := by
  simp only [Component.getCorners, Vec2.rotate, h, Real.cos_zero, Real.sin_zero,
    List.map_cons, List.map_nil]
  norm_num
  first
    | exact ⟨trivial, trivial⟩
    | trivial

lemma getCorners_cPin : cPin.getCorners = boxPoly1 := by
  rw [getCorners_axis_aligned _ rfl]
  norm_num [cPin, box0, boxPoly1]

lemma getCorners_cFree : cFree.getCorners = boxPoly2 := by
  rw [getCorners_axis_aligned _ rfl]
  norm_num [cFree, box1, box0, boxPoly2]

lemma getCorners_cRest1 : cRest1.getCorners = boxPoly1 := by
  rw [getCorners_axis_aligned _ rfl]
  norm_num [cRest1, box0, boxPoly1]

lemma getCorners_cRest2 : cRest2.getCorners = boxPoly2 := by
  rw [getCorners_axis_aligned _ rfl]
  norm_num [cRest2, box1, box0, boxPoly2]

/-- C10 witness helper: SAT on the pinned-weld fixture. -/
lemma satTest_cPinFree : satTest cPin.getCorners cFree.getCorners = some (1/2, ⟨-1, 0⟩) := by
  rw [getCorners_cPin, getCorners_cFree, satTest_box12]

/-- C10 witness: the pinned drifting box and the free box overlap by
1/2; the free box gets the pinned box's velocity `(1/2, 0)` and zero
spin, the pinned box is untouched. -/
theorem resolveCollision_pinned_dominance_witness :
    cPin.isStatic = true ∧ cFree.isStatic = false ∧
    0 < cFree.mass ∧ cFree.mass < 10000 ∧
    Vec2.mag (Vec2.sub ⟨cPin.vx, cPin.vy⟩ ⟨cFree.vx, cFree.vy⟩) < 3 ∧
    satTest cPin.getCorners cFree.getCorners = some (1/2, ⟨-1, 0⟩) ∧
    ((resolveCollision cPin cFree).1 = cPin ∧
     (resolveCollision cPin cFree).2.vx = cPin.vx ∧
     (resolveCollision cPin cFree).2.vy = cPin.vy ∧
     (resolveCollision cPin cFree).2.angV = 0) := by
  have hrel : Vec2.mag (Vec2.sub ⟨cPin.vx, cPin.vy⟩ ⟨cFree.vx, cFree.vy⟩) < 3 := by
    have : Vec2.sub ⟨cPin.vx, cPin.vy⟩ ⟨cFree.vx, cFree.vy⟩ = ⟨1/2, 0⟩ := by
      norm_num [Vec2.sub, cPin, cFree, box1, box0]
    rw [this, Vec2.mag, sqrt_eval (show (0:ℝ) ≤ 1/2 by norm_num) (by norm_num)]
    norm_num
  refine ⟨rfl, rfl, by norm_num [cFree, box1, box0], by norm_num [cFree, box1, box0],
    hrel, satTest_cPinFree, ?_⟩
  exact (resolveCollision_pinned_dominance cPin cFree rfl rfl
    (by norm_num [cFree, box1, box0]) (by norm_num [cFree, box1, box0]) hrel).1
    (1/2) ⟨-1, 0⟩ satTest_cPinFree

/-! ## C2: head-on restitution -/

lemma Vec2.dot_zero_right (v : Vec2) : Vec2.dot v ⟨0, 0⟩ = 0 := by
  simp [Vec2.dot]

lemma Vec2.scale_zero_vec (s : ℝ) : Vec2.scale ⟨0, 0⟩ s = ⟨0, 0⟩ := by
  simp [Vec2.scale]

lemma posCorrect1_vx (c1 c2 : Component) (sep : Vec2) :
    (posCorrect1 c1 c2 sep).vx = c1.vx := by
  unfold posCorrect1; split_ifs <;> rfl

lemma posCorrect1_vy (c1 c2 : Component) (sep : Vec2) :
    (posCorrect1 c1 c2 sep).vy = c1.vy := by
  unfold posCorrect1; split_ifs <;> rfl

lemma posCorrect2_vx (c1 c2 : Component) (sep : Vec2) :
    (posCorrect2 c1 c2 sep).vx = c2.vx := by
  unfold posCorrect2; split_ifs <;> rfl

lemma posCorrect2_vy (c1 c2 : Component) (sep : Vec2) :
    (posCorrect2 c1 c2 sep).vy = c2.vy := by
  unfold posCorrect2; split_ifs <;> rfl

/-- C2.  Two colliding non-pinned bodies of equal (positive) mass whose
relative velocity is head-on — parallel to the collision normal and
closing — with relative speed at least 3 (so the weld path does not
trigger) and closing speed along the normal above the
adaptive-restitution threshold 1: the resolver leaves a post-collision
relative velocity along the normal equal to `-0.2` times the
pre-collision one (restitution e = 0.2; the friction impulse vanishes
for a head-on collision). -/
theorem resolveCollision_restitution (c1 c2 : Component) (o : ℝ) (a : Vec2)
    (h1 : c1.isStatic = false) (h2 : c2.isStatic = false)
    (hmass : c1.mass = c2.mass) (hpos : 0 < c1.mass)
    (hsat : satTest c1.getCorners c2.getCorners = some (o, a))
    (hpar : Vec2.sub ⟨c1.vx, c1.vy⟩ ⟨c2.vx, c2.vy⟩ =
      Vec2.scale (collisionNormal c1 c2 o a)
        (Vec2.dot (Vec2.sub ⟨c1.vx, c1.vy⟩ ⟨c2.vx, c2.vy⟩) (collisionNormal c1 c2 o a)))
    (hspeed : 3 ≤ Vec2.mag (Vec2.sub ⟨c1.vx, c1.vy⟩ ⟨c2.vx, c2.vy⟩))
    (hclose : Vec2.dot (Vec2.sub ⟨c1.vx, c1.vy⟩ ⟨c2.vx, c2.vy⟩)
        (collisionNormal c1 c2 o a) < -1) :
    Vec2.dot (Vec2.sub ⟨(resolveCollision c1 c2).1.vx, (resolveCollision c1 c2).1.vy⟩
        ⟨(resolveCollision c1 c2).2.vx, (resolveCollision c1 c2).2.vy⟩)
      (collisionNormal c1 c2 o a)
    = -0.2 * Vec2.dot (Vec2.sub ⟨c1.vx, c1.vy⟩ ⟨c2.vx, c2.vy⟩)
        (collisionNormal c1 c2 o a) := by
  have hm2 : 0 < c2.mass := hmass ▸ hpos
  have hne1 : c1.mass ≠ 0 := ne_of_gt hpos
  have hne2 : c2.mass ≠ 0 := ne_of_gt hm2
  simp only [collisionNormal] at hpar hclose ⊢
  have hnn : Vec2.dot (Vec2.norm (collisionSep c1 c2 o a))
      (Vec2.norm (collisionSep c1 c2 o a)) = 1 := by
    rcases Vec2.norm_eq_zero_or_unit (collisionSep c1 c2 o a) with h0 | hu
    · exfalso
      rw [h0] at hclose
      simp [Vec2.dot] at hclose
      linarith
    · exact hu
  rw [resolveCollision_eq_at c1 c2 o a (by simp [h1]) hsat]
  simp only [resolveCollisionAt]
  rw [if_neg (not_lt.mpr hspeed), if_neg (by push_neg; linarith [hclose])]
  have hr : c1.mass / c2.mass = 1 := by rw [hmass]; exact div_self hne2
  have he : (if Vec2.dot (Vec2.sub ⟨c1.vx, c1.vy⟩ ⟨c2.vx, c2.vy⟩)
      (Vec2.norm (collisionSep c1 c2 o a)) > -1 then (0:ℝ) else 0.2) = 0.2 :=
    if_neg (by push_neg; linarith [hclose])
  have htan : Vec2.sub (Vec2.sub ⟨c1.vx, c1.vy⟩ ⟨c2.vx, c2.vy⟩)
      (Vec2.scale (Vec2.norm (collisionSep c1 c2 o a))
        (Vec2.dot (Vec2.sub ⟨c1.vx, c1.vy⟩ ⟨c2.vx, c2.vy⟩)
          (Vec2.norm (collisionSep c1 c2 o a)))) = ⟨0, 0⟩ := by
    rw [← hpar]
    ext <;> simp [Vec2.sub]
  simp only [impulseApply, h1, h2, hr, he, htan, Vec2.norm_mk_zero,
    Vec2.dot_zero_right, Vec2.scale_zero_vec,
    posCorrect1_vx, posCorrect1_vy, posCorrect2_vx, posCorrect2_vy]
  norm_num
  split_ifs with hzero
  · exfalso
    have hp : (0:ℝ) < c1.mass⁻¹ + c2.mass⁻¹ := by positivity
    linarith [hp, hzero]
  · simp only [Vec2.scale, Vec2.dot, Vec2.sub]
    simp only [Vec2.dot] at hnn
    set nx := (Vec2.norm (collisionSep c1 c2 o a)).x with hnx
    set ny := (Vec2.norm (collisionSep c1 c2 o a)).y with hny
    set d := (c1.vx - c2.vx) * nx + (c1.vy - c2.vy) * ny with hd
    have hsumne : (1 / c1.mass + 1 / c2.mass : ℝ) ≠ 0 := by positivity
    have hj : (-(1 + 0.2) * d) / (1 / c1.mass + 1 / c2.mass) *
        (1 / c1.mass + 1 / c2.mass) = -(1 + 0.2) * d :=
      div_mul_cancel₀ _ hsumne
    linear_combination (nx * nx + ny * ny) * hj + (-(1 + 0.2) * d) * hnn

lemma satTest_cRest : satTest cRest1.getCorners cRest2.getCorners = some (1/2, ⟨-1, 0⟩) := by
  rw [getCorners_cRest1, getCorners_cRest2]
  exact satTest_box12

lemma collisionNormal_cRest : collisionNormal cRest1 cRest2 (1/2) ⟨-1, 0⟩ = ⟨-1, 0⟩ := by
  have hm : Vec2.norm ⟨(-(1/2):ℝ), 0⟩ = ⟨-1, 0⟩ := by
    rw [Vec2.norm_eval (show (0:ℝ) < 1/2 by norm_num) (by norm_num)]
    norm_num
  unfold collisionNormal collisionSep
  norm_num [Vec2.scale, Vec2.sub, Vec2.dot, cRest1, cRest2, box0, box1, hm]

lemma rv_cRest : Vec2.sub ⟨cRest1.vx, cRest1.vy⟩ ⟨cRest2.vx, cRest2.vy⟩ = ⟨4, 0⟩ := by
  norm_num [Vec2.sub, cRest1, cRest2, box0, box1]

lemma mag_four : Vec2.mag ⟨(4:ℝ), 0⟩ = 4 := by
  unfold Vec2.mag
  rw [show (4:ℝ) * 4 + 0 * 0 = 16 by norm_num]
  exact sqrt_eval (by norm_num) (by norm_num)

/-- C2 witness: two equal-mass boxes overlapping by 1/2 and closing
head-on along the x-axis at relative velocity `(4, 0)`: the post-impact
relative velocity along the normal is `-0.2 * (-4) = 0.8`. -/
theorem resolveCollision_restitution_witness :
    cRest1.isStatic = false ∧ cRest2.isStatic = false ∧
    cRest1.mass = cRest2.mass ∧ 0 < cRest1.mass ∧
    satTest cRest1.getCorners cRest2.getCorners = some (1/2, ⟨-1, 0⟩) ∧
    Vec2.sub ⟨cRest1.vx, cRest1.vy⟩ ⟨cRest2.vx, cRest2.vy⟩ =
      Vec2.scale (collisionNormal cRest1 cRest2 (1/2) ⟨-1, 0⟩)
        (Vec2.dot (Vec2.sub ⟨cRest1.vx, cRest1.vy⟩ ⟨cRest2.vx, cRest2.vy⟩)
          (collisionNormal cRest1 cRest2 (1/2) ⟨-1, 0⟩)) ∧
    3 ≤ Vec2.mag (Vec2.sub ⟨cRest1.vx, cRest1.vy⟩ ⟨cRest2.vx, cRest2.vy⟩) ∧
    Vec2.dot (Vec2.sub ⟨cRest1.vx, cRest1.vy⟩ ⟨cRest2.vx, cRest2.vy⟩)
      (collisionNormal cRest1 cRest2 (1/2) ⟨-1, 0⟩) < -1 ∧
    Vec2.dot (Vec2.sub
        ⟨(resolveCollision cRest1 cRest2).1.vx, (resolveCollision cRest1 cRest2).1.vy⟩
        ⟨(resolveCollision cRest1 cRest2).2.vx, (resolveCollision cRest1 cRest2).2.vy⟩)
      (collisionNormal cRest1 cRest2 (1/2) ⟨-1, 0⟩)
    = -0.2 * Vec2.dot (Vec2.sub ⟨cRest1.vx, cRest1.vy⟩ ⟨cRest2.vx, cRest2.vy⟩)
        (collisionNormal cRest1 cRest2 (1/2) ⟨-1, 0⟩) := by
  have hpar : Vec2.sub ⟨cRest1.vx, cRest1.vy⟩ ⟨cRest2.vx, cRest2.vy⟩ =
      Vec2.scale (collisionNormal cRest1 cRest2 (1/2) ⟨-1, 0⟩)
        (Vec2.dot (Vec2.sub ⟨cRest1.vx, cRest1.vy⟩ ⟨cRest2.vx, cRest2.vy⟩)
          (collisionNormal cRest1 cRest2 (1/2) ⟨-1, 0⟩)) := by
    rw [rv_cRest, collisionNormal_cRest]
    norm_num [Vec2.scale, Vec2.dot]
  have hspeed : 3 ≤ Vec2.mag (Vec2.sub ⟨cRest1.vx, cRest1.vy⟩ ⟨cRest2.vx, cRest2.vy⟩) := by
    rw [rv_cRest, mag_four]
    norm_num
  have hclose : Vec2.dot (Vec2.sub ⟨cRest1.vx, cRest1.vy⟩ ⟨cRest2.vx, cRest2.vy⟩)
      (collisionNormal cRest1 cRest2 (1/2) ⟨-1, 0⟩) < -1 := by
    rw [rv_cRest, collisionNormal_cRest]
    norm_num [Vec2.dot]
  exact ⟨rfl, rfl, rfl, by norm_num [cRest1, box0], satTest_cRest, hpar, hspeed, hclose,
    resolveCollision_restitution cRest1 cRest2 (1/2) ⟨-1, 0⟩ rfl rfl rfl
      (by norm_num [cRest1, box0]) satTest_cRest hpar hspeed hclose⟩

/-! ## C1: the SAT loop is correct -/

lemma getAxes_length (poly : List Vec2) : (getAxes poly).length = poly.length := by
  simp [getAxes]

/-- The loop returns `none` exactly when some remaining axis separates
the projections. -/
lemma satAux_eq_none_iff (poly1 poly2 : List Vec2) :
    ∀ (axes : List Vec2) (best : Option (ℝ × Vec2)),
      satAux poly1 poly2 axes best = none ↔
        ∃ ax ∈ axes, ¬ overlapsP (project poly1 ax) (project poly2 ax) := by
  intro axes
  induction axes with
  | nil => intro best; simp [satAux]
  | cons a rest ih =>
      intro best
      by_cases h : overlapsP (project poly1 a) (project poly2 a)
      · simp only [satAux, if_pos h]
        rw [ih]
        constructor
        · rintro ⟨ax, hmem, hgap⟩
          exact ⟨ax, List.mem_cons_of_mem _ hmem, hgap⟩
        · rintro ⟨ax, hmem, hgap⟩
          rcases List.mem_cons.mp hmem with rfl | hmem'
          · exact absurd h hgap
          · exact ⟨ax, hmem', hgap⟩
      · simp only [satAux, if_neg h]
        constructor
        · intro
          exact ⟨a, List.mem_cons_self a rest, h⟩
        · intro
          trivial

/-- With a filled accumulator, a `some` result of the loop is the
minimum of the accumulator's overlap and the remaining axes' overlaps,
realized at the accumulator's axis or one of the remaining axes; and
every remaining axis overlaps. -/
lemma satAux_some_acc (poly1 poly2 : List Vec2) :
    ∀ (axes : List Vec2) (b : ℝ) (ba : Vec2) (r : Option (ℝ × Vec2)),
      satAux poly1 poly2 axes (some (b, ba)) = some r →
      ∃ o a, r = some (o, a) ∧
        ((o = b ∧ a = ba) ∨
          (a ∈ axes ∧ o = getOverlap (project poly1 a) (project poly2 a))) ∧
        o ≤ b ∧
        (∀ ax ∈ axes, o ≤ getOverlap (project poly1 ax) (project poly2 ax)) ∧
        (∀ ax ∈ axes, overlapsP (project poly1 ax) (project poly2 ax)) := by
  intro axes
  induction axes with
  | nil =>
      intro b ba r h
      simp only [satAux, Option.some_inj] at h
      exact ⟨b, ba, h.symm, Or.inl ⟨rfl, rfl⟩, le_refl b, by simp, by simp⟩
  | cons a rest ih =>
      intro b ba r h
      by_cases hov : overlapsP (project poly1 a) (project poly2 a)
      · simp only [satAux, if_pos hov] at h
        by_cases hlt : getOverlap (project poly1 a) (project poly2 a) < b
        · rw [if_pos hlt] at h
          obtain ⟨o, a', hr, hdisj, hle, hall, hovl⟩ := ih _ _ _ h
          refine ⟨o, a', hr, ?_, ?_, ?_, ?_⟩
          · rcases hdisj with ⟨ho, ha⟩ | ⟨hmem, ho⟩
            · exact Or.inr ⟨ha ▸ List.mem_cons_self a rest, ha ▸ ho⟩
            · exact Or.inr ⟨List.mem_cons_of_mem _ hmem, ho⟩
          · exact le_of_lt (lt_of_le_of_lt hle hlt)
          · intro ax hax
            rcases List.mem_cons.mp hax with rfl | hmem'
            · exact hle
            · exact hall ax hmem'
          · intro ax hax
            rcases List.mem_cons.mp hax with rfl | hmem'
            · exact hov
            · exact hovl ax hmem'
        · rw [if_neg hlt] at h
          obtain ⟨o, a', hr, hdisj, hle, hall, hovl⟩ := ih _ _ _ h
          refine ⟨o, a', hr, ?_, hle, ?_, ?_⟩
          · rcases hdisj with ⟨ho, ha⟩ | ⟨hmem, ho⟩
            · exact Or.inl ⟨ho, ha⟩
            · exact Or.inr ⟨List.mem_cons_of_mem _ hmem, ho⟩
          · intro ax hax
            rcases List.mem_cons.mp hax with rfl | hmem'
            · exact le_trans hle (not_lt.mp hlt)
            · exact hall ax hmem'
          · intro ax hax
            rcases List.mem_cons.mp hax with rfl | hmem'
            · exact hov
            · exact hovl ax hmem'
      · simp only [satAux, if_neg hov] at h
        exact Option.noConfusion h

/-- Starting from the empty accumulator, a `some` result is the minimum
overlap over the axes, realized at one of them — unless there are no
axes at all, in which case the inner result is `none`. -/
lemma satAux_none_acc (poly1 poly2 : List Vec2) :
    ∀ (axes : List Vec2) (r : Option (ℝ × Vec2)),
      satAux poly1 poly2 axes none = some r →
      (axes = [] ∧ r = none) ∨
      (∃ o a, r = some (o, a) ∧ a ∈ axes ∧
        o = getOverlap (project poly1 a) (project poly2 a) ∧
        (∀ ax ∈ axes, o ≤ getOverlap (project poly1 ax) (project poly2 ax)) ∧
        (∀ ax ∈ axes, overlapsP (project poly1 ax) (project poly2 ax))) := by
  intro axes r h
  cases axes with
  | nil =>
      simp only [satAux, Option.some_inj] at h
      exact Or.inl ⟨rfl, h.symm⟩
  | cons a rest =>
      by_cases hov : overlapsP (project poly1 a) (project poly2 a)
      · simp only [satAux, if_pos hov] at h
        obtain ⟨o, a', hr, hdisj, hle, hall, hovl⟩ := satAux_some_acc poly1 poly2 _ _ _ _ h
        refine Or.inr ⟨o, a', hr, ?_, ?_, ?_, ?_⟩
        · rcases hdisj with ⟨ho, ha⟩ | ⟨hmem, ho⟩
          · exact ha ▸ List.mem_cons_self a rest
          · exact List.mem_cons_of_mem _ hmem
        · rcases hdisj with ⟨ho, ha⟩ | ⟨hmem, ho⟩
          · rw [ho, ha]
          · exact ho
        · intro ax hax
          rcases List.mem_cons.mp hax with rfl | hmem'
          · exact hle
          · exact hall ax hmem'
        · intro ax hax
          rcases List.mem_cons.mp hax with rfl | hmem'
          · exact hov
          · exact hovl ax hmem'
      · simp only [satAux, if_neg hov] at h
        exact Option.noConfusion h

/-- C1.  For every pair of 4-corner polygons: `satTest` returns no
collision (`none`) exactly when one of the eight edge-normal axes of
the two rectangles separates the projection intervals (`max_A < min_B`
or `max_B < min_A`); otherwise it returns the minimum, over the eight
axes, of the projection-interval overlaps, together with an axis
attaining that minimum. -/
theorem satTest_spec (poly1 poly2 : List Vec2)
    (h1 : poly1.length = 4) (h2 : poly2.length = 4) :
    SatTestSpec poly1 poly2 := by
  have hax : getAxes poly1 ++ getAxes poly2 ≠ [] := by
    intro h
    have := congrArg List.length h
    rw [List.length_append, getAxes_length, getAxes_length, h1, h2] at this
    simp at this
  constructor
  · unfold satTest
    constructor
    · intro h
      rcases hr : satAux poly1 poly2 (getAxes poly1 ++ getAxes poly2) none with - | r
      · exact (satAux_eq_none_iff poly1 poly2 _ _).mp hr
      · rw [hr] at h
        simp only [Option.bind_some, id] at h
        rcases satAux_none_acc poly1 poly2 _ _ hr with ⟨hnil, -⟩ | ⟨o, a, hrs, -⟩
        · exact absurd hnil hax
        · rw [hrs] at h
          exact Option.noConfusion h
    · intro h
      rw [(satAux_eq_none_iff poly1 poly2 _ _).mpr h]
      rfl
  · intro o a h
    unfold satTest at h
    rcases hr : satAux poly1 poly2 (getAxes poly1 ++ getAxes poly2) none with - | r
    · rw [hr] at h
      exact Option.noConfusion h
    · rw [hr] at h
      simp only [Option.bind_some, id] at h
      rcases satAux_none_acc poly1 poly2 _ _ hr with ⟨-, hnone⟩ | ⟨o', a', hrs, hmem, hov, hall, hovl⟩
      · rw [hnone] at h
        exact Option.noConfusion h
      · rw [hrs] at h
        obtain ⟨ho, ha⟩ := Prod.mk.injEq .. ▸ Option.some_inj.mp h
        subst ho
        subst ha
        exact ⟨hmem, hov, fun ax hax' => ⟨hovl ax hax', hall ax hax'⟩⟩

/-- C1 witness: the two 2x2 boxes overlapping by `1/2`. -/
theorem satTest_spec_witness :
    boxPoly1.length = 4 ∧ boxPoly2.length = 4 ∧ SatTestSpec boxPoly1 boxPoly2 :=
  ⟨rfl, rfl, satTest_spec boxPoly1 boxPoly2 rfl rfl⟩

end Magnet

end
